import Mathlib

/-!
Shallow embedding of the two CircuitPython drivers of this repository:
`sparkfun_qwiictwist.py` (SparkFun Qwiic Twist rotary-encoder client) and
`wiichuck/__init__.py` (Nintendo Wii accessory client).

Driver functions are translated line by line from the Python source.  The
I2C bus is made observable as an explicit trace of transactions, and the
peripheral is modelled as a byte-addressed register file that faithfully
stores the bytes the driver writes (the "mock transport" of the
specification's testable properties).
-/

namespace Iot

/-! ### Python integer primitives

Python integers are arbitrary precision and signed; `&`, `|`, `~` act on
the two's-complement binary representation, `<<` multiplies by a power of
two and `>>` is an arithmetic (floor) shift.  Mathlib's `Int.land`,
`Int.lor`, `Int.lnot` and the `>>>` instance on `ℤ` implement exactly
these semantics. -/

def pyAnd (a b : Int) : Int := Int.land a b

def pyOr (a b : Int) : Int := Int.lor a b

def pyNot (a : Int) : Int := Int.lnot a

def pyShl (a : Int) (n : Nat) : Int := a * 2 ^ n

def pyShr (a : Int) (n : Nat) : Int := a >>> (n : Int)

/-! ### Bus transactions -/

/-- One observable transaction on the I2C bus: a write of a byte payload
(`device.write(bytes([...]))`), a read of `n` bytes into a caller buffer
(`device.readinto(buf)`), or a sleep of `us` microseconds
(`time.sleep`). -/
inductive Tx where
  | write (payload : List Int)
  | readinto (n : Nat)
  | sleepUs (us : Nat)
  deriving DecidableEq, Repr

/-! ### Mock peripheral -/

/-- Store a list of bytes at consecutive register offsets. -/
def storeBytes : (Nat → Int) → Nat → List Int → (Nat → Int)
  | regs, _, [] => regs
  | regs, a, b :: bs => storeBytes (Function.update regs a b) (a + 1) bs

/-- Client state of `Sparkfun_QwiicTwist`: the register file of the mock
peripheral it talks to, and the I2C address its `_device` handle is
currently bound to. -/
structure Twist where
  regs : Nat → Int
  address : Nat

/-- Mock peripheral semantics of a register-protocol write: the first
payload byte selects the register offset, the remaining bytes are stored
at consecutive offsets (register auto-increment), exactly the layout the
driver's 8/16/24-bit write primitives assume. -/
def deviceWrite (t : Twist) : List Int → Twist
  | [] => t
  | a :: data => { t with regs := storeBytes t.regs a.toNat data }

/-! ### Constants from `sparkfun_qwiictwist.py` -/

def QWIIC_TWIST_ADDR : Int := 0x3F

def QWIIC_TWIST_ID : Int := 0x5C

def _BUTTON_CLICKED_BIT : Nat := 2

def _BUTTON_PRESSED_BIT : Nat := 1

def _ENCODER_MOVED_BIT : Nat := 0

def _TWIST_ID : Int := 0x00

def _TWIST_STATUS : Int := 0x01

def _TWIST_VERSION : Int := 0x02

def _TWIST_COUNT : Int := 0x05

def _TWIST_DIFFERENCE : Int := 0x07

def _TWIST_RED : Int := 0x0D

def _TWIST_CHANGE_ADDRESS : Int := 0x18

/-- `_signed_int16(value)`: convert a 16-bit value into a signed integer.
Source: `if result & (1 << 15): result -= 1 << 16`. -/
def _signed_int16 (value : Int) : Int :=
  if pyAnd value (pyShl 1 15) ≠ 0 then value - pyShl 1 16 else value

namespace Sparkfun_QwiicTwist

/-- `_read_register8(addr)`: write `[addr & 0xFF]`, read one byte.  The
mock peripheral answers with the byte stored at the selected offset. -/
def _read_register8 (t : Twist) (addr : Int) : Int × Twist × List Tx :=
  let a := pyAnd addr 255
  (t.regs a.toNat, t, [Tx.write [a], Tx.readinto 1])

/-- `_write_register8(addr, value)`: write `[addr & 0xFF, value & 0xFF]`. -/
def _write_register8 (t : Twist) (addr value : Int) : Twist × List Tx :=
  let payload := [pyAnd addr 255, pyAnd value 255]
  (deviceWrite t payload, [Tx.write payload])

/-- `_read_register16(addr)`: write `[addr & 0xFF]`, read two bytes
`result`, return `(result[1] << 8) | result[0]`.  The mock peripheral
answers with the bytes stored at the selected offset and the next one. -/
def _read_register16 (t : Twist) (addr : Int) : Int × Twist × List Tx :=
  let a := pyAnd addr 255
  let b0 := t.regs a.toNat
  let b1 := t.regs (a.toNat + 1)
  (pyOr (pyShl b1 8) b0, t, [Tx.write [a], Tx.readinto 2])

/-- `_write_register16(addr, value)`: write
`[addr & 0xFF, value & 0xFF, (value >> 8) & 0xFF]` (LSB then MSB). -/
def _write_register16 (t : Twist) (addr value : Int) : Twist × List Tx :=
  let payload := [pyAnd addr 255, pyAnd value 255, pyAnd (pyShr value 8) 255]
  (deviceWrite t payload, [Tx.write payload])

/-- `_write_register24(addr, value)`: write
`[addr & 0xFF, (value >> 16) & 0xFF, (value >> 8) & 0xFF, value & 0xFF]`. -/
def _write_register24 (t : Twist) (addr value : Int) : Twist × List Tx :=
  let payload := [pyAnd addr 255, pyAnd (pyShr value 16) 255,
    pyAnd (pyShr value 8) 255, pyAnd value 255]
  (deviceWrite t payload, [Tx.write payload])

/-- Property `moved`: read the status register, test the encoder-moved
bit, write the status back with that bit cleared
(`status & ~(1 << _ENCODER_MOVED_BIT)`), return `bool(moved)`. -/
def moved (t : Twist) : Bool × Twist × List Tx :=
  let r := _read_register8 t _TWIST_STATUS
  let status := r.1
  let m := pyAnd status (pyShl 1 _ENCODER_MOVED_BIT)
  let w := _write_register8 r.2.1 _TWIST_STATUS
    (pyAnd status (pyNot (pyShl 1 _ENCODER_MOVED_BIT)))
  (decide (m ≠ 0), w.1, r.2.2 ++ w.2)

/-- Property `pressed`: same read-modify-write on the button-pressed bit. -/
def pressed (t : Twist) : Bool × Twist × List Tx :=
  let r := _read_register8 t _TWIST_STATUS
  let status := r.1
  let p := pyAnd status (pyShl 1 _BUTTON_PRESSED_BIT)
  let w := _write_register8 r.2.1 _TWIST_STATUS
    (pyAnd status (pyNot (pyShl 1 _BUTTON_PRESSED_BIT)))
  (decide (p ≠ 0), w.1, r.2.2 ++ w.2)

/-- Property `clicked`: same read-modify-write on the button-clicked bit. -/
def clicked (t : Twist) : Bool × Twist × List Tx :=
  let r := _read_register8 t _TWIST_STATUS
  let status := r.1
  let c := pyAnd status (pyShl 1 _BUTTON_CLICKED_BIT)
  let w := _write_register8 r.2.1 _TWIST_STATUS
    (pyAnd status (pyNot (pyShl 1 _BUTTON_CLICKED_BIT)))
  (decide (c ≠ 0), w.1, r.2.2 ++ w.2)

/-- Property `version`: read 16 bits from the version register; the low
byte is the major number and the high byte the minor number; format
`"v" + str(major) + "." + str(minor)`. -/
def version (t : Twist) : String × Twist × List Tx :=
  let r := _read_register16 t _TWIST_VERSION
  let value := r.1
  let major := pyAnd value 255
  let minor := pyAnd (pyShr value 8) 255
  ("v" ++ toString major ++ "." ++ toString minor, r.2.1, r.2.2)

/-- Property `difference`: read 16 bits from the difference register,
sign-extend, then write 0 back to clear the accumulator. -/
def difference (t : Twist) : Int × Twist × List Tx :=
  let r := _read_register16 t _TWIST_DIFFERENCE
  let diff := _signed_int16 r.1
  let w := _write_register16 r.2.1 _TWIST_DIFFERENCE 0
  (diff, w.1, r.2.2 ++ w.2)

/-- `set_color(red_value, green_value, blue_value)`: one 24-bit write of
`(red_value & 0xFF) << 16 | (green_value & 0xFF) << 8 | blue_value & 0xFF`
starting at the red LED register. -/
def set_color (t : Twist) (red_value green_value blue_value : Int) :
    Twist × List Tx :=
  _write_register24 t _TWIST_RED
    (pyOr (pyOr (pyShl (pyAnd red_value 255) 16) (pyShl (pyAnd green_value 255) 8))
      (pyAnd blue_value 255))

/-- `change_address(new_address)`: reject addresses outside 8–119 before
any bus traffic; otherwise write the new address to the change-address
register, sleep one second, then try to re-create the `I2CDevice` at the
new address, catching the `ValueError` it raises when no device answers.
`probe a = true` models a successful `I2CDevice(self._i2c, a)`
construction (a device acknowledges at address `a`). -/
def change_address (probe : Int → Bool) (t : Twist) (new_address : Int) :
    Bool × Twist × List Tx :=
  if new_address < 8 ∨ new_address > 119 then
    (false, t, [])
  else
    let w := _write_register8 t _TWIST_CHANGE_ADDRESS new_address
    let tx := w.2 ++ [Tx.sleepUs 1000000]
    if probe new_address then
      (true, { w.1 with address := new_address.toNat }, tx)
    else
      (false, w.1, tx)

end Sparkfun_QwiicTwist

/-! ### `wiichuck/__init__.py` -/

def _I2C_INIT_DELAY_US : Nat := 100000

def _DEFAULT_I2C_READ_DELAY_US : Nat := 2000

/-- A Python `bytearray` object: an identity (which never changes while
the object is alive) together with its mutable byte contents.  Two
accesses return "the same object" exactly when the identities agree. -/
structure ByteArr where
  id : Nat
  data : List Int
  deriving DecidableEq, Repr

/-- Client state of `WiiChuckBase`: the accumulator buffer allocated at
construction, the bound I2C address and the configured inter-phase read
delay (`time.sleep` argument, in microseconds). -/
structure WiiChuck where
  buffer : ByteArr
  address : Nat
  i2c_read_delay_us : Nat
  deriving DecidableEq, Repr

namespace WiiChuckBase

/-- `WiiChuckBase.__init__`: allocate `bytearray(8)` (a fresh object,
identity `bufId`), bind the device, sleep the init delay, then send the
two-step disable-encryption handshake separated by the init delay. -/
def init (bufId : Nat) (address : Nat) (i2c_read_delay_us : Nat) :
    WiiChuck × List Tx :=
  ({ buffer := ⟨bufId, List.replicate 8 0⟩, address := address,
     i2c_read_delay_us := i2c_read_delay_us },
   [Tx.sleepUs _I2C_INIT_DELAY_US, Tx.write [0xF0, 0x55],
    Tx.sleepUs _I2C_INIT_DELAY_US, Tx.write [0xFB, 0x00]])

/-- `_read_register(address)`: write the register-select bytes, sleep the
configured delay, then `readinto(self.buffer)` — the device fills exactly
`len(self.buffer)` bytes in place (the object identity is unchanged) —
and return `self.buffer`.  `resp i` is the `i`-th byte the device puts on
the wire. -/
def _read_register (c : WiiChuck) (address : List Int) (resp : Nat → Int) :
    ByteArr × WiiChuck × List Tx :=
  let n := c.buffer.data.length
  let c1 := { c with buffer := ⟨c.buffer.id, (List.range n).map resp⟩ }
  (c1.buffer, c1,
   [Tx.write address, Tx.sleepUs c.i2c_read_delay_us, Tx.readinto n])

/-- `_read_data()`: `self._read_register(b"\x00")`. -/
def _read_data (c : WiiChuck) (resp : Nat → Int) :
    ByteArr × WiiChuck × List Tx :=
  _read_register c [0x00] resp

/-- Run a sequence of `_read_data` calls, one per device response,
returning the final client state. -/
def readSeq : WiiChuck → List (Nat → Int) → WiiChuck
  | c, [] => c
  | c, resp :: rest => readSeq (_read_data c resp).2.1 rest

end WiiChuckBase

/-! ### Arithmetic characterization of the Python primitives -/

theorem int_land_natCast (m n : Nat) :
    Int.land (m : Int) (n : Int) = ((m &&& n : Nat) : Int) := rfl

theorem int_land_natCast_negSucc (m n : Nat) :
    Int.land (m : Int) (Int.negSucc n) = ((Nat.ldiff m n : Nat) : Int) := rfl

theorem int_land_negSucc_natCast (m n : Nat) :
    Int.land (Int.negSucc m) (n : Int) = ((Nat.ldiff n m : Nat) : Int) := rfl

theorem int_lor_natCast (m n : Nat) :
    Int.lor (m : Int) (n : Int) = ((m ||| n : Nat) : Int) := rfl

theorem int_lnot_natCast (n : Nat) : Int.lnot (n : Int) = Int.negSucc n := rfl

set_option maxRecDepth 4000 in
theorem xor_255 (r : Nat) (h : r < 256) : 255 ^^^ r = 255 - r := by
  revert r
  decide

theorem ldiff_255 (m : Nat) : Nat.ldiff 255 m = 255 - m % 256 := by
  have h := xor_255 (m % 256) (Nat.mod_lt _ (by norm_num))
  rw [← h]
  apply Nat.eq_of_testBit_eq
  intro i
  have h256 : (256 : ℕ) = 2 ^ 8 := by norm_num
  have h255 : (255 : ℕ) = 2 ^ 8 - 1 := by norm_num
  rw [Nat.testBit_ldiff, Nat.testBit_xor, h256, Nat.testBit_mod_two_pow, h255,
    Nat.testBit_two_pow_sub_one]
  by_cases hi : i < 8 <;> simp [hi]

/-- Python `x & 0xFF` is `x mod 256`, for every integer `x`. -/
theorem pyAnd_255 (x : Int) : pyAnd x 255 = x % 256 := by
  unfold pyAnd
  cases x with
  | ofNat m =>
    rw [show (255 : Int) = ((255 : Nat) : Int) from rfl,
      show Int.ofNat m = ((m : Nat) : Int) from rfl, int_land_natCast]
    have hm : m &&& 255 = m % 256 := by
      have h := Nat.and_pow_two_sub_one_eq_mod m 8
      norm_num at h
      exact h
    rw [hm]
    omega
  | negSucc m =>
    rw [show (255 : Int) = ((255 : Nat) : Int) from rfl, int_land_negSucc_natCast,
      ldiff_255, Int.negSucc_eq]
    omega

/-- Python `x >> 8` is floor division by 256, for every integer `x`. -/
theorem pyShr_8 (x : Int) : pyShr x 8 = x / 256 := by
  unfold pyShr
  cases x with
  | ofNat m =>
    rw [show Int.ofNat m = ((m : Nat) : Int) from rfl, Int.shiftRight_coe_nat,
      Nat.shiftRight_eq_div_pow, show (2 : ℕ) ^ 8 = 256 from by norm_num]
    omega
  | negSucc m =>
    rw [Int.shiftRight_negSucc, Nat.shiftRight_eq_div_pow,
      show (2 : ℕ) ^ 8 = 256 from by norm_num, Int.negSucc_eq, Int.negSucc_eq]
    omega

/-- Python `x >> 16` is floor division by 65536, for every integer `x`. -/
theorem pyShr_16 (x : Int) : pyShr x 16 = x / 65536 := by
  unfold pyShr
  cases x with
  | ofNat m =>
    rw [show Int.ofNat m = ((m : Nat) : Int) from rfl, Int.shiftRight_coe_nat,
      Nat.shiftRight_eq_div_pow, show (2 : ℕ) ^ 16 = 65536 from by norm_num]
    omega
  | negSucc m =>
    rw [Int.shiftRight_negSucc, Nat.shiftRight_eq_div_pow,
      show (2 : ℕ) ^ 16 = 65536 from by norm_num, Int.negSucc_eq, Int.negSucc_eq]
    omega

theorem pyShl_natCast (a n : Nat) : pyShl (a : Int) n = ((a * 2 ^ n : Nat) : Int) := by
  unfold pyShl
  push_cast
  ring

theorem mul_pow_or_eq_add (x y n : Nat) (hy : y < 2 ^ n) :
    (x * 2 ^ n) ||| y = 2 ^ n * x + y := by
  have h : x * 2 ^ n = x <<< n := by rw [Nat.shiftLeft_eq]
  rw [h]
  apply Nat.eq_of_testBit_eq
  intro i
  rw [Nat.testBit_or, Nat.testBit_shiftLeft, Nat.testBit_mul_pow_two_add x hy i]
  by_cases hi : i < n
  · have h2 : ¬ i ≥ n := by omega
    simp [hi, h2]
  · have h2 : i ≥ n := by omega
    have h3 : Nat.testBit y i = false :=
      Nat.testBit_lt_two_pow (lt_of_lt_of_le hy (Nat.pow_le_pow_right (by norm_num) h2))
    simp [hi, h2, h3]

/-- The driver's 16-bit read assembly `(result[1] << 8) | result[0]` on
byte values is little-endian: it denotes `256 * msb + lsb`. -/
theorem assemble16 (b0 b1 : Nat) (h0 : b0 < 256) :
    pyOr (pyShl (b1 : Int) 8) (b0 : Int) = ((256 * b1 + b0 : Nat) : Int) := by
  rw [pyShl_natCast]
  unfold pyOr
  rw [int_lor_natCast,
    mul_pow_or_eq_add b1 b0 8 (by simpa using h0)]
  norm_num

/-- `status & ~(1 << b)` on a natural status value clears bit `b`. -/
theorem pyAnd_pyNot_bit (s b : Nat) :
    pyAnd (s : Int) (pyNot (pyShl 1 b)) = ((Nat.ldiff s (2 ^ b) : Nat) : Int) := by
  unfold pyAnd pyNot pyShl
  rw [show ((1 : ℤ) * 2 ^ b) = ((2 ^ b : Nat) : Int) from by push_cast; ring,
    int_lnot_natCast, int_land_natCast_negSucc]

theorem testBit_ldiff_pow (s b i : Nat) :
    (Nat.ldiff s (2 ^ b)).testBit i = (s.testBit i && !(decide (b = i))) := by
  rw [Nat.testBit_ldiff, Nat.testBit_two_pow]

theorem ldiff_pow_lt (s b : Nat) (hs : s < 256) (hb : b < 8) :
    Nat.ldiff s (2 ^ b) < 256 := by
  have hk : (2 : ℕ) ^ b < 2 ^ 8 := Nat.pow_lt_pow_right (by norm_num) hb
  have hs8 : s < 2 ^ 8 := by omega
  have h : Nat.bitwise (fun x y => x && !y) s (2 ^ b) < 2 ^ 8 :=
    Nat.bitwise_lt_two_pow hs8 hk
  have he : Nat.ldiff s (2 ^ b) = Nat.bitwise (fun x y => x && !y) s (2 ^ b) := rfl
  rw [he]
  omega

/-- Testing a status bit: `s & (1 << b)` is nonzero iff bit `b` is set. -/
theorem pyAnd_bit_ne_zero (s b : Nat) :
    (pyAnd (s : Int) (pyShl 1 b) ≠ 0) ↔ s.testBit b = true := by
  unfold pyAnd pyShl
  rw [show ((1 : ℤ) * 2 ^ b) = ((2 ^ b : Nat) : Int) from by push_cast; ring,
    int_land_natCast, Nat.and_two_pow]
  rcases hbit : s.testBit b <;> simp [hbit]

/-- On 16-bit values, bit 15 decides the sign branch. -/
theorem testBit_15_eq (v : Nat) (hv : v < 65536) :
    v.testBit 15 = decide (32768 ≤ v) := by
  rw [Nat.testBit_to_div_mod, decide_eq_decide,
    show (2 : ℕ) ^ 15 = 32768 from by norm_num]
  omega

/-- `_signed_int16` on 16-bit register values: identity below `2 ^ 15`,
shifted down by `2 ^ 16` above. -/
theorem signed_int16_eq (v : Nat) (hv : v < 65536) :
    _signed_int16 (v : Int) =
      if v < 32768 then (v : Int) else (v : Int) - 65536 := by
  unfold _signed_int16 pyAnd pyShl
  rw [show ((1 : ℤ) * 2 ^ 15) = ((32768 : Nat) : Int) from by norm_num,
    int_land_natCast,
    show (v &&& 32768 : ℕ) = (v.testBit 15).toNat * 32768 from by
      rw [show (32768 : ℕ) = 2 ^ 15 from by norm_num]
      exact Nat.and_two_pow v 15,
    testBit_15_eq v hv]
  rcases Nat.lt_or_ge v 32768 with h | h
  · rw [if_pos h,
      show decide (32768 ≤ v) = false from by simp [Nat.not_le.mpr h]]
    simp
  · rw [if_neg (Nat.not_lt.mpr h),
      show decide (32768 ≤ v) = true from by simp [h]]
    norm_num

theorem pyAnd_255_natCast_small (n : Nat) (h : n < 256) :
    pyAnd (n : Int) 255 = (n : Int) := by
  rw [pyAnd_255]
  omega

theorem decide_pyAnd_bit (s b : Nat) :
    decide (pyAnd (s : Int) (pyShl 1 b) ≠ 0) = s.testBit b := by
  have h := pyAnd_bit_ne_zero s b
  rcases hbit : s.testBit b
  · rw [hbit] at h
    simp [h]
  · rw [hbit] at h
    simp [h]

/-- `w` is an 8-bit value equal to `s` with bit `b` cleared and every
other bit unchanged. -/
def ClearsBit (s b : Nat) (w : Int) : Prop :=
  ∃ s' : Nat, s' < 256 ∧ w = (s' : Int) ∧ s'.testBit b = false ∧
    ∀ i, i ≠ b → s'.testBit i = s.testBit i

theorem clears_bit_value (s b : Nat) (hs : s < 256) (hb : b < 8) :
    ClearsBit s b (pyAnd (pyAnd (s : Int) (pyNot (pyShl 1 b))) 255) := by
  refine ⟨Nat.ldiff s (2 ^ b), ldiff_pow_lt s b hs hb, ?_, ?_, ?_⟩
  · rw [pyAnd_pyNot_bit, pyAnd_255_natCast_small _ (ldiff_pow_lt s b hs hb)]
  · rw [testBit_ldiff_pow]
    simp
  · intro i hi
    rw [testBit_ldiff_pow]
    simp [Ne.symm hi]

namespace Sparkfun_QwiicTwist

theorem moved_parts (t : Twist) :
    (moved t).1 = decide (pyAnd (t.regs 1) (pyShl 1 0) ≠ 0) ∧
    (moved t).2.1.regs =
      Function.update t.regs 1
        (pyAnd (pyAnd (t.regs 1) (pyNot (pyShl 1 0))) 255) :=
  ⟨rfl, rfl⟩

theorem pressed_parts (t : Twist) :
    (pressed t).1 = decide (pyAnd (t.regs 1) (pyShl 1 1) ≠ 0) ∧
    (pressed t).2.1.regs =
      Function.update t.regs 1
        (pyAnd (pyAnd (t.regs 1) (pyNot (pyShl 1 1))) 255) :=
  ⟨rfl, rfl⟩

theorem clicked_parts (t : Twist) :
    (clicked t).1 = decide (pyAnd (t.regs 1) (pyShl 1 2) ≠ 0) ∧
    (clicked t).2.1.regs =
      Function.update t.regs 1
        (pyAnd (pyAnd (t.regs 1) (pyNot (pyShl 1 2))) 255) :=
  ⟨rfl, rfl⟩

end Sparkfun_QwiicTwist

/-- C1: for every 8-bit status value `s` on the device, reading `moved`
(respectively `pressed`, `clicked`) returns `true` iff bit 0
(respectively bit 1, bit 2) of `s` is set, and before returning writes
back `s` with exactly that one bit cleared, leaving every other bit — in
particular the other two status bits — unchanged. -/
theorem claim_C1_flag_read_clears_only_its_bit (t : Twist) (s : Nat)
    (hs : s < 256) (ht : t.regs 1 = (s : Int)) :
    ((Sparkfun_QwiicTwist.moved t).1 = s.testBit 0 ∧
      ClearsBit s 0 ((Sparkfun_QwiicTwist.moved t).2.1.regs 1)) ∧
    ((Sparkfun_QwiicTwist.pressed t).1 = s.testBit 1 ∧
      ClearsBit s 1 ((Sparkfun_QwiicTwist.pressed t).2.1.regs 1)) ∧
    ((Sparkfun_QwiicTwist.clicked t).1 = s.testBit 2 ∧
      ClearsBit s 2 ((Sparkfun_QwiicTwist.clicked t).2.1.regs 1)) := by
  obtain ⟨hm1, hm2⟩ := Sparkfun_QwiicTwist.moved_parts t
  obtain ⟨hp1, hp2⟩ := Sparkfun_QwiicTwist.pressed_parts t
  obtain ⟨hc1, hc2⟩ := Sparkfun_QwiicTwist.clicked_parts t
  rw [ht] at hm1 hm2 hp1 hp2 hc1 hc2
  refine ⟨⟨?_, ?_⟩, ⟨?_, ?_⟩, ⟨?_, ?_⟩⟩
  · rw [hm1, decide_pyAnd_bit]
  · rw [hm2, Function.update_same]
    exact clears_bit_value s 0 hs (by norm_num)
  · rw [hp1, decide_pyAnd_bit]
  · rw [hp2, Function.update_same]
    exact clears_bit_value s 1 hs (by norm_num)
  · rw [hc1, decide_pyAnd_bit]
  · rw [hc2, Function.update_same]
    exact clears_bit_value s 2 hs (by norm_num)

/-- Witness for C1 at status `0b111` on a concrete device state: reading
`moved` returns `true` and the register becomes `0b110`-shaped
(bit 0 cleared, bits 1 and 2 still set). -/
theorem claim_C1_flag_read_clears_only_its_bit_witness :
    (7 : Nat) < 256 ∧
      (⟨fun a => if a = 1 then (7 : Int) else 0, 63⟩ : Twist).regs 1 = ((7 : Nat) : Int) ∧
      (((Sparkfun_QwiicTwist.moved ⟨fun a => if a = 1 then (7 : Int) else 0, 63⟩).1 =
          Nat.testBit 7 0 ∧
        ClearsBit 7 0
          ((Sparkfun_QwiicTwist.moved
            ⟨fun a => if a = 1 then (7 : Int) else 0, 63⟩).2.1.regs 1)) ∧
       ((Sparkfun_QwiicTwist.pressed ⟨fun a => if a = 1 then (7 : Int) else 0, 63⟩).1 =
          Nat.testBit 7 1 ∧
        ClearsBit 7 1
          ((Sparkfun_QwiicTwist.pressed
            ⟨fun a => if a = 1 then (7 : Int) else 0, 63⟩).2.1.regs 1)) ∧
       ((Sparkfun_QwiicTwist.clicked ⟨fun a => if a = 1 then (7 : Int) else 0, 63⟩).1 =
          Nat.testBit 7 2 ∧
        ClearsBit 7 2
          ((Sparkfun_QwiicTwist.clicked
            ⟨fun a => if a = 1 then (7 : Int) else 0, 63⟩).2.1.regs 1))) :=
  ⟨by decide, by decide,
    claim_C1_flag_read_clears_only_its_bit
      ⟨fun a => if a = 1 then (7 : Int) else 0, 63⟩ 7 (by decide) (by decide)⟩

namespace Sparkfun_QwiicTwist

theorem difference_parts (t : Twist) :
    (difference t).1 = _signed_int16 (pyOr (pyShl (t.regs 8) 8) (t.regs 7)) ∧
    (difference t).2.1.regs = Function.update (Function.update t.regs 7 0) 8 0 ∧
    (difference t).2.2 = [Tx.write [7], Tx.readinto 2, Tx.write [7, 0, 0]] :=
  ⟨rfl, rfl, rfl⟩

theorem write16_trace (t : Twist) (addr value : Int) :
    (_write_register16 t addr value).2 =
      [Tx.write [pyAnd addr 255, pyAnd value 255, pyAnd (pyShr value 8) 255]] :=
  rfl

theorem write24_trace (t : Twist) (addr value : Int) :
    (_write_register24 t addr value).2 =
      [Tx.write [pyAnd addr 255, pyAnd (pyShr value 16) 255,
        pyAnd (pyShr value 8) 255, pyAnd value 255]] :=
  rfl

theorem version_parts (t : Twist) :
    (version t).1 =
      "v" ++ toString (pyAnd (pyOr (pyShl (t.regs 3) 8) (t.regs 2)) 255) ++ "." ++
        toString (pyAnd (pyShr (pyOr (pyShl (t.regs 3) 8) (t.regs 2)) 8) 255) :=
  rfl

end Sparkfun_QwiicTwist

/-- C5: for every device state holding bytes `b0` (LSB) and `b1` (MSB)
in the difference register, reading `difference` returns the
sign-extended 16-bit value `256 * b1 + b0` and then writes 0 to that
register, so both bytes of the register hold 0 afterwards while every
other register is unchanged. -/
theorem claim_C5_difference_read_then_reset (t : Twist) (b0 b1 : Nat)
    (h0 : b0 < 256) (h1 : b1 < 256)
    (ht0 : t.regs 7 = (b0 : Int)) (ht1 : t.regs 8 = (b1 : Int)) :
    (Sparkfun_QwiicTwist.difference t).1 =
      (if 256 * b1 + b0 < 32768 then ((256 * b1 + b0 : Nat) : Int)
       else ((256 * b1 + b0 : Nat) : Int) - 65536) ∧
    (Sparkfun_QwiicTwist.difference t).2.1.regs 7 = 0 ∧
    (Sparkfun_QwiicTwist.difference t).2.1.regs 8 = 0 ∧
    ∀ a, a ≠ 7 → a ≠ 8 →
      (Sparkfun_QwiicTwist.difference t).2.1.regs a = t.regs a := by
  obtain ⟨hd1, hd2, _⟩ := Sparkfun_QwiicTwist.difference_parts t
  rw [ht0, ht1] at hd1
  refine ⟨?_, ?_, ?_, ?_⟩
  · rw [hd1, assemble16 b0 b1 h0, signed_int16_eq _ (by omega)]
  · rw [hd2, Function.update_noteq (by norm_num), Function.update_same]
  · rw [hd2, Function.update_same]
  · intro a ha7 ha8
    rw [hd2, Function.update_noteq ha8, Function.update_noteq ha7]

/-- Witness for C5 with difference bytes `[0x2C, 0x01]` (value 300). -/
theorem claim_C5_difference_read_then_reset_witness :
    (44 : Nat) < 256 ∧ (1 : Nat) < 256 ∧
      (⟨fun a => if a = 7 then (44 : Int) else if a = 8 then 1 else 0, 63⟩ :
        Twist).regs 7 = ((44 : Nat) : Int) ∧
      (⟨fun a => if a = 7 then (44 : Int) else if a = 8 then 1 else 0, 63⟩ :
        Twist).regs 8 = ((1 : Nat) : Int) ∧
      ((Sparkfun_QwiicTwist.difference
          ⟨fun a => if a = 7 then (44 : Int) else if a = 8 then 1 else 0, 63⟩).1 =
        (if 256 * 1 + 44 < 32768 then ((256 * 1 + 44 : Nat) : Int)
         else ((256 * 1 + 44 : Nat) : Int) - 65536) ∧
      (Sparkfun_QwiicTwist.difference
          ⟨fun a => if a = 7 then (44 : Int) else if a = 8 then 1 else 0, 63⟩).2.1.regs 7 = 0 ∧
      (Sparkfun_QwiicTwist.difference
          ⟨fun a => if a = 7 then (44 : Int) else if a = 8 then 1 else 0, 63⟩).2.1.regs 8 = 0 ∧
      ∀ a, a ≠ 7 → a ≠ 8 →
        (Sparkfun_QwiicTwist.difference
          ⟨fun a => if a = 7 then (44 : Int) else if a = 8 then 1 else 0, 63⟩).2.1.regs a =
          (⟨fun a => if a = 7 then (44 : Int) else if a = 8 then 1 else 0, 63⟩ :
            Twist).regs a) :=
  ⟨by decide, by decide, by decide, by decide,
    claim_C5_difference_read_then_reset
      ⟨fun a => if a = 7 then (44 : Int) else if a = 8 then 1 else 0, 63⟩ 44 1
      (by decide) (by decide) (by decide) (by decide)⟩

/-- C6: for all integers `r`, `g`, `b`, `set_color(r, g, b)` issues
exactly one write transaction, whose payload is the red LED register
offset `0x0D` followed by `r`, `g`, `b` each reduced mod 256 (their low
bytes, MSB-first 24-bit encoding) — not three separate 8-bit writes. -/
theorem claim_C6_set_color_single_write (t : Twist) (r g b : Int) :
    (Sparkfun_QwiicTwist.set_color t r g b).2 =
      [Tx.write [13, r % 256, g % 256, b % 256]] := by
  obtain ⟨ra, hra, hra2⟩ : ∃ n : Nat, n < 256 ∧ r % 256 = (n : Int) :=
    ⟨(r % 256).toNat, by omega, by omega⟩
  obtain ⟨ga, hga, hga2⟩ : ∃ n : Nat, n < 256 ∧ g % 256 = (n : Int) :=
    ⟨(g % 256).toNat, by omega, by omega⟩
  obtain ⟨ba, hba, hba2⟩ : ∃ n : Nat, n < 256 ∧ b % 256 = (n : Int) :=
    ⟨(b % 256).toNat, by omega, by omega⟩
  have hV : pyOr (pyOr (pyShl (pyAnd r 255) 16) (pyShl (pyAnd g 255) 8))
      (pyAnd b 255) = ((65536 * ra + 256 * ga + ba : Nat) : Int) := by
    rw [pyAnd_255, pyAnd_255, pyAnd_255, hra2, hga2, hba2,
      pyShl_natCast, pyShl_natCast]
    unfold pyOr
    have e1 : ra * 2 ^ 16 ||| ga * 2 ^ 8 = 2 ^ 16 * ra + ga * 2 ^ 8 :=
      mul_pow_or_eq_add ra (ga * 2 ^ 8) 16 (by
        have hp8 : (2 : ℕ) ^ 8 = 256 := by norm_num
        have hp16 : (2 : ℕ) ^ 16 = 65536 := by norm_num
        omega)
    have e2 : 2 ^ 16 * ra + ga * 2 ^ 8 ||| ba = 2 ^ 8 * (2 ^ 8 * ra + ga) + ba := by
      rw [show 2 ^ 16 * ra + ga * 2 ^ 8 = (2 ^ 8 * ra + ga) * 2 ^ 8 from by ring]
      exact mul_pow_or_eq_add _ ba 8 (by
        have hp8 : (2 : ℕ) ^ 8 = 256 := by norm_num
        omega)
    rw [int_lor_natCast, e1, int_lor_natCast, e2]
    push_cast
    ring
  unfold Sparkfun_QwiicTwist.set_color
  rw [Sparkfun_QwiicTwist.write24_trace, hV]
  have hb1 : pyAnd (pyShr ((65536 * ra + 256 * ga + ba : Nat) : Int) 16) 255 =
      r % 256 := by
    rw [pyShr_16, pyAnd_255, hra2]
    omega
  have hb2 : pyAnd (pyShr ((65536 * ra + 256 * ga + ba : Nat) : Int) 8) 255 =
      g % 256 := by
    rw [pyShr_8, pyAnd_255, hga2]
    omega
  have hb3 : pyAnd ((65536 * ra + 256 * ga + ba : Nat) : Int) 255 = b % 256 := by
    rw [pyAnd_255, hba2]
    omega
  rw [hb1, hb2, hb3, show pyAnd _TWIST_RED 255 = (13 : Int) from rfl]

/-- C7: for every register address below 256 and every integer value,
the 16-bit write primitive issues a single write whose payload is the
address byte, then the least-significant byte `value mod 256`, then the
most-significant byte `(value >> 8) mod 256` — LSB transmitted before
MSB. -/
theorem claim_C7_write16_lsb_before_msb (t : Twist) (addr : Nat)
    (ha : addr < 256) (value : Int) :
    (Sparkfun_QwiicTwist._write_register16 t (addr : Int) value).2 =
      [Tx.write [(addr : Int), value % 256, (value / 256) % 256]] := by
  rw [Sparkfun_QwiicTwist.write16_trace, pyAnd_255_natCast_small addr ha,
    pyAnd_255, pyShr_8, pyAnd_255]

/-- Witness for C7 at address 5 and value −1. -/
theorem claim_C7_write16_lsb_before_msb_witness :
    (5 : Nat) < 256 ∧
      (Sparkfun_QwiicTwist._write_register16 ⟨fun _ => 0, 63⟩ ((5 : Nat) : Int)
          (-1)).2 =
        [Tx.write [((5 : Nat) : Int), (-1) % 256, ((-1) / 256) % 256]] :=
  ⟨by norm_num,
    claim_C7_write16_lsb_before_msb ⟨fun _ => 0, 63⟩ 5 (by norm_num) (-1)⟩

/-- C8: for wire bytes `lsb`, `msb` returned by the 16-bit read of the
version register, the `version` property formats the low byte as the
major number and the high byte as the minor number:
`"v" ++ decimal lsb ++ "." ++ decimal msb`. -/
theorem claim_C8_version_low_byte_major (t : Twist) (lsb msb : Nat)
    (hl : lsb < 256) (hm : msb < 256)
    (ht2 : t.regs 2 = (lsb : Int)) (ht3 : t.regs 3 = (msb : Int)) :
    (Sparkfun_QwiicTwist.version t).1 =
      "v" ++ toString lsb ++ "." ++ toString msb := by
  have h := Sparkfun_QwiicTwist.version_parts t
  rw [ht2, ht3, assemble16 lsb msb hl] at h
  rw [h]
  have h1 : pyAnd ((256 * msb + lsb : Nat) : Int) 255 = ((lsb : Nat) : Int) := by
    rw [pyAnd_255]
    omega
  have h2 : pyAnd (pyShr ((256 * msb + lsb : Nat) : Int) 8) 255 =
      ((msb : Nat) : Int) := by
    rw [pyShr_8, pyAnd_255]
    omega
  rw [h1, h2, show toString ((lsb : Nat) : Int) = toString lsb from rfl,
    show toString ((msb : Nat) : Int) = toString msb from rfl]

/-- Witness for C8 with wire bytes `[0x01, 0x02]`, yielding `"v1.2"`. -/
theorem claim_C8_version_low_byte_major_witness :
    (1 : Nat) < 256 ∧ (2 : Nat) < 256 ∧
      (⟨fun a => if a = 2 then (1 : Int) else if a = 3 then 2 else 0, 63⟩ :
        Twist).regs 2 = ((1 : Nat) : Int) ∧
      (⟨fun a => if a = 2 then (1 : Int) else if a = 3 then 2 else 0, 63⟩ :
        Twist).regs 3 = ((2 : Nat) : Int) ∧
      (Sparkfun_QwiicTwist.version
        ⟨fun a => if a = 2 then (1 : Int) else if a = 3 then 2 else 0, 63⟩).1 =
        "v" ++ toString (1 : Nat) ++ "." ++ toString (2 : Nat) :=
  ⟨by decide, by decide, by decide, by decide,
    claim_C8_version_low_byte_major
      ⟨fun a => if a = 2 then (1 : Int) else if a = 3 then 2 else 0, 63⟩ 1 2
      (by decide) (by decide) (by decide) (by decide)⟩

/-- C4: for every 16-bit value `v` in `[0, 65535]`, `_signed_int16`
returns `v` if `v < 32768` and `v - 65536` otherwise (subtract `2 ^ 16`
exactly when bit 15 is set), so its result always lies in
`[-32768, 32767]`. -/
theorem claim_C4_signed16_decode (v : Nat) (hv : v < 65536) :
    _signed_int16 (v : Int) =
      (if v < 32768 then (v : Int) else (v : Int) - 65536) ∧
    -32768 ≤ _signed_int16 (v : Int) ∧ _signed_int16 (v : Int) ≤ 32767 := by
  refine ⟨signed_int16_eq v hv, ?_, ?_⟩ <;> rw [signed_int16_eq v hv] <;>
    split <;> omega

/-- Witness for C4 at `v = 40000` (bit 15 set). -/
theorem claim_C4_signed16_decode_witness :
    (40000 : Nat) < 65536 ∧
      (_signed_int16 ((40000 : Nat) : Int) =
        (if (40000 : Nat) < 32768 then ((40000 : Nat) : Int)
         else ((40000 : Nat) : Int) - 65536) ∧
      -32768 ≤ _signed_int16 ((40000 : Nat) : Int) ∧
      _signed_int16 ((40000 : Nat) : Int) ≤ 32767) :=
  ⟨by norm_num, claim_C4_signed16_decode 40000 (by norm_num)⟩

namespace Sparkfun_QwiicTwist

theorem change_address_out_of_range (probe : Int → Bool) (t : Twist) (a : Int)
    (h : a < 8 ∨ a > 119) :
    change_address probe t a = (false, t, []) := by
  unfold change_address
  rw [if_pos h]

theorem change_address_in_range (probe : Int → Bool) (t : Twist) (a : Int)
    (h : ¬ (a < 8 ∨ a > 119)) :
    change_address probe t a =
      (probe a,
       if probe a then
         { (_write_register8 t _TWIST_CHANGE_ADDRESS a).1 with
             address := a.toNat }
       else (_write_register8 t _TWIST_CHANGE_ADDRESS a).1,
       (_write_register8 t _TWIST_CHANGE_ADDRESS a).2 ++ [Tx.sleepUs 1000000]) := by
  unfold change_address
  rw [if_neg h]
  rcases hp : probe a with _ | _ <;> simp [hp]

end Sparkfun_QwiicTwist

/-- C2: `change_address(new_address)` issues a bus write iff
`8 ≤ new_address ≤ 119`: out of range it returns `false` with no bus
traffic and an unchanged client; in range it issues the 8-bit write of
`new_address` to the change-address register 0x18 followed by a
1-second sleep, and — when the device construction at the new address
succeeds — rebinds the handle to the new address and returns `true`. -/
theorem claim_C2_change_address_range_check (probe : Int → Bool) (t : Twist)
    (a : Int) :
    ((a < 8 ∨ a > 119) →
      Sparkfun_QwiicTwist.change_address probe t a = (false, t, [])) ∧
    (8 ≤ a → a ≤ 119 →
      (Sparkfun_QwiicTwist.change_address probe t a).2.2 =
        [Tx.write [24, a], Tx.sleepUs 1000000] ∧
      (probe a = true →
        (Sparkfun_QwiicTwist.change_address probe t a).1 = true ∧
        (Sparkfun_QwiicTwist.change_address probe t a).2.1.address = a.toNat)) := by
  constructor
  · exact Sparkfun_QwiicTwist.change_address_out_of_range probe t a
  · intro h8 h119
    have hc : ¬ (a < 8 ∨ a > 119) := by omega
    have he := Sparkfun_QwiicTwist.change_address_in_range probe t a hc
    have hpa : pyAnd a 255 = a := by
      rw [pyAnd_255]
      omega
    constructor
    · rw [he, show (Sparkfun_QwiicTwist._write_register8 t _TWIST_CHANGE_ADDRESS a).2 =
        [Tx.write [pyAnd _TWIST_CHANGE_ADDRESS 255, pyAnd a 255]] from rfl, hpa]
      rfl
    · intro hp
      rw [he]
      exact ⟨hp, by simp [hp]⟩

/-- Witness for C2: address 5 is rejected with no bus traffic; address
64 is written to register 0x18 and, with a responsive device, the handle
is rebound and the call succeeds. -/
theorem claim_C2_change_address_range_check_witness :
    ((5 : Int) < 8 ∨ (5 : Int) > 119) ∧
    Sparkfun_QwiicTwist.change_address (fun _ => true) ⟨fun _ => 0, 63⟩ 5 =
      (false, ⟨fun _ => 0, 63⟩, []) ∧
    (8 : Int) ≤ 64 ∧ (64 : Int) ≤ 119 ∧ (fun _ : Int => true) 64 = true ∧
    (Sparkfun_QwiicTwist.change_address (fun _ => true) ⟨fun _ => 0, 63⟩ 64).2.2 =
      [Tx.write [24, 64], Tx.sleepUs 1000000] ∧
    (Sparkfun_QwiicTwist.change_address (fun _ => true) ⟨fun _ => 0, 63⟩ 64).1 =
      true ∧
    (Sparkfun_QwiicTwist.change_address (fun _ => true)
      ⟨fun _ => 0, 63⟩ 64).2.1.address = (64 : Int).toNat :=
  ⟨by norm_num,
    (claim_C2_change_address_range_check (fun _ => true) ⟨fun _ => 0, 63⟩ 5).1
      (by norm_num),
    by norm_num, by norm_num, rfl,
    ((claim_C2_change_address_range_check (fun _ => true) ⟨fun _ => 0, 63⟩ 64).2
      (by norm_num) (by norm_num)).1,
    (((claim_C2_change_address_range_check (fun _ => true) ⟨fun _ => 0, 63⟩ 64).2
      (by norm_num) (by norm_num)).2 rfl).1,
    (((claim_C2_change_address_range_check (fun _ => true) ⟨fun _ => 0, 63⟩ 64).2
      (by norm_num) (by norm_num)).2 rfl).2⟩

/-- C3: if, after the address write and the settle delay, constructing
the device binding at the new address fails (the `ValueError` branch),
`change_address` returns `false` rather than raising, and the client's
previous address binding is left unchanged. -/
theorem claim_C3_change_address_keeps_old_binding (probe : Int → Bool)
    (t : Twist) (a : Int) (h8 : 8 ≤ a) (h119 : a ≤ 119)
    (hp : probe a = false) :
    (Sparkfun_QwiicTwist.change_address probe t a).1 = false ∧
    (Sparkfun_QwiicTwist.change_address probe t a).2.1.address = t.address := by
  have hc : ¬ (a < 8 ∨ a > 119) := by omega
  have he := Sparkfun_QwiicTwist.change_address_in_range probe t a hc
  rw [he]
  exact ⟨hp, by simp [hp]; rfl⟩

/-- Witness for C3 at address 64 with an unresponsive device. -/
theorem claim_C3_change_address_keeps_old_binding_witness :
    (8 : Int) ≤ 64 ∧ (64 : Int) ≤ 119 ∧ (fun _ : Int => false) 64 = false ∧
    (Sparkfun_QwiicTwist.change_address (fun _ => false)
      ⟨fun _ => 0, 63⟩ 64).1 = false ∧
    (Sparkfun_QwiicTwist.change_address (fun _ => false)
      ⟨fun _ => 0, 63⟩ 64).2.1.address =
      (⟨fun _ => 0, 63⟩ : Twist).address :=
  ⟨by norm_num, by norm_num, rfl,
    (claim_C3_change_address_keeps_old_binding (fun _ => false)
      ⟨fun _ => 0, 63⟩ 64 (by norm_num) (by norm_num) rfl).1,
    (claim_C3_change_address_keeps_old_binding (fun _ => false)
      ⟨fun _ => 0, 63⟩ 64 (by norm_num) (by norm_num) rfl).2⟩

/-- C10: encoding any `v` in `[-32768, 32767]` with the 16-bit write
primitive into a register file that faithfully stores the two payload
bytes, then decoding via the 16-bit read assembly followed by signed
reconstruction, yields `v` again. -/
theorem claim_C10_signed16_roundtrip (t : Twist) (v : Int)
    (h1 : -32768 ≤ v) (h2 : v ≤ 32767) :
    _signed_int16
      ((Sparkfun_QwiicTwist._read_register16
        ((Sparkfun_QwiicTwist._write_register16 t 7 v).1) 7).1) = v := by
  have hw : (Sparkfun_QwiicTwist._write_register16 t 7 v).1.regs =
      Function.update (Function.update t.regs 7 (pyAnd v 255)) 8
        (pyAnd (pyShr v 8) 255) := rfl
  have hread : (Sparkfun_QwiicTwist._read_register16
      ((Sparkfun_QwiicTwist._write_register16 t 7 v).1) 7).1 =
    pyOr (pyShl ((Sparkfun_QwiicTwist._write_register16 t 7 v).1.regs 8) 8)
      ((Sparkfun_QwiicTwist._write_register16 t 7 v).1.regs 7) := rfl
  rw [hread, hw, Function.update_same,
    Function.update_noteq (show (7 : Nat) ≠ 8 from by norm_num),
    Function.update_same]
  obtain ⟨b0, hb0, hb0e⟩ : ∃ n : Nat, n < 256 ∧ pyAnd v 255 = (n : Int) :=
    ⟨(v % 256).toNat, by omega, by rw [pyAnd_255]; omega⟩
  obtain ⟨b1, hb1, hb1e⟩ :
      ∃ n : Nat, n < 256 ∧ pyAnd (pyShr v 8) 255 = (n : Int) :=
    ⟨((v / 256) % 256).toNat, by omega, by rw [pyShr_8, pyAnd_255]; omega⟩
  have e0 : v % 256 = (b0 : Int) := by
    rw [← hb0e, pyAnd_255]
  have e1 : (v / 256) % 256 = (b1 : Int) := by
    rw [← hb1e, pyShr_8, pyAnd_255]
  rw [hb0e, hb1e, assemble16 b0 b1 hb0, signed_int16_eq _ (by omega)]
  split <;> omega

/-- Witness for C10 at `v = -2`. -/
theorem claim_C10_signed16_roundtrip_witness :
    -32768 ≤ (-2 : Int) ∧ (-2 : Int) ≤ 32767 ∧
      _signed_int16
        ((Sparkfun_QwiicTwist._read_register16
          ((Sparkfun_QwiicTwist._write_register16 ⟨fun _ => 0, 63⟩ 7 (-2)).1)
          7).1) = -2 :=
  ⟨by norm_num, by norm_num,
    claim_C10_signed16_roundtrip ⟨fun _ => 0, 63⟩ (-2) (by norm_num)
      (by norm_num)⟩

namespace WiiChuckBase

theorem _read_data_parts (c : WiiChuck) (resp : Nat → Int) :
    (_read_data c resp).1 = (_read_data c resp).2.1.buffer ∧
    (_read_data c resp).2.1.buffer.id = c.buffer.id ∧
    (_read_data c resp).2.1.buffer.data.length = c.buffer.data.length ∧
    (_read_data c resp).2.1.i2c_read_delay_us = c.i2c_read_delay_us ∧
    (_read_data c resp).2.2 =
      [Tx.write [0], Tx.sleepUs c.i2c_read_delay_us,
        Tx.readinto c.buffer.data.length] := by
  refine ⟨rfl, rfl, ?_, rfl, rfl⟩
  simp [_read_data, _read_register]

theorem readSeq_preserved (c : WiiChuck) (resps : List (Nat → Int)) :
    (readSeq c resps).buffer.id = c.buffer.id ∧
    (readSeq c resps).buffer.data.length = c.buffer.data.length ∧
    (readSeq c resps).i2c_read_delay_us = c.i2c_read_delay_us := by
  induction resps generalizing c with
  | nil => exact ⟨rfl, rfl, rfl⟩
  | cons r rs ih =>
    obtain ⟨_, h2, h3, h4, _⟩ := _read_data_parts c r
    obtain ⟨g1, g2, g3⟩ := ih ((_read_data c r).2.1)
    refine ⟨?_, ?_, ?_⟩
    · rw [show readSeq c (r :: rs) = readSeq (_read_data c r).2.1 rs from rfl,
        g1, h2]
    · rw [show readSeq c (r :: rs) = readSeq (_read_data c r).2.1 rs from rfl,
        g2, h3]
    · rw [show readSeq c (r :: rs) = readSeq (_read_data c r).2.1 rs from rfl,
        g3, h4]

end WiiChuckBase

/-- C9: after construction (and any number of earlier reads), every
`_read_data` call issues the single-byte write `[0x00]`, sleeps the
configured inter-phase delay (default 2000 µs, which satisfies the
200 µs minimum), reads exactly 8 bytes into the client's accumulator
buffer, and returns that buffer — the identical 8-byte object (same
identity) allocated at construction, with no per-read allocation. -/
theorem claim_C9_read_trace_and_stable_buffer (bufId address delay : Nat)
    (resps : List (Nat → Int)) (resp : Nat → Int) :
    (WiiChuckBase._read_data
      (WiiChuckBase.readSeq (WiiChuckBase.init bufId address delay).1 resps)
      resp).2.2 =
      [Tx.write [0], Tx.sleepUs delay, Tx.readinto 8] ∧
    (WiiChuckBase._read_data
      (WiiChuckBase.readSeq (WiiChuckBase.init bufId address delay).1 resps)
      resp).1 =
      (WiiChuckBase._read_data
        (WiiChuckBase.readSeq (WiiChuckBase.init bufId address delay).1 resps)
        resp).2.1.buffer ∧
    (WiiChuckBase._read_data
      (WiiChuckBase.readSeq (WiiChuckBase.init bufId address delay).1 resps)
      resp).1.id = bufId ∧
    (WiiChuckBase._read_data
      (WiiChuckBase.readSeq (WiiChuckBase.init bufId address delay).1 resps)
      resp).1.data.length = 8 ∧
    _DEFAULT_I2C_READ_DELAY_US = 2000 ∧ 200 ≤ _DEFAULT_I2C_READ_DELAY_US := by
  obtain ⟨p1, p2, p3, p4, p5⟩ :=
    WiiChuckBase._read_data_parts
      (WiiChuckBase.readSeq (WiiChuckBase.init bufId address delay).1 resps) resp
  obtain ⟨q1, q2, q3⟩ :=
    WiiChuckBase.readSeq_preserved (WiiChuckBase.init bufId address delay).1 resps
  have hid : (WiiChuckBase.init bufId address delay).1.buffer.id = bufId := rfl
  have hlen : (WiiChuckBase.init bufId address delay).1.buffer.data.length = 8 :=
    rfl
  have hdel :
      (WiiChuckBase.init bufId address delay).1.i2c_read_delay_us = delay := rfl
  refine ⟨?_, p1, ?_, ?_, rfl, by decide⟩
  · rw [p5, q3, hdel, q2, hlen]
  · rw [p1, p2, q1, hid]
  · rw [p1, p3, q2, hlen]

end Iot
